import Mathlib

/-!
# A shallow embedding of the `fsm.c` / `fsm.h` finite-state-machine engine

Each definition below mirrors one function of `src/fsm.c`.  C integers are
modelled as `Int`; machine overflow never matters here since ids, event ids
and nest depths stay tiny.  The application callbacks (conditions, actions,
entry, exit) are modelled by identifiers (`Nat`) together with an environment
`Env` giving each condition/action callback a boolean result that may depend on
the full history of callback invocations so far (which captures arbitrary
stateful callbacks).  Every callback invocation is logged, in order, in a
trace of `CbEvent`s, so that "callback X was (not) invoked" is observable.

The per-entity `FSM_OBJECT_STATE` is modelled with its `iNestedStateIds` array
as a total map `Int → Int`; indices `0..3` are the cells of the C array
`int iNestedStateIds[FSM_MAX_STATE_NEST_DEPTH]`, any access outside `0..3`
corresponds to an out-of-bounds array access in the C program.
-/

namespace Fsm

/-- Reserved event id of a catch transition (`FSM_CATCH_TRANSITION` in fsm.c). -/
def FSM_CATCH_TRANSITION : Int := -1

/-- `FSM_ST_SAME` (fsm.h): target id meaning "no state change". -/
def FSM_ST_SAME : Int := -1

/-- `FSM_ST_PARENT` (fsm.h): target id meaning "exit sub-state to parent". -/
def FSM_ST_PARENT : Int := -2

/-- `FSM_ST_ANY` (fsm.h): state id of the wildcard pseudo-state. -/
def FSM_ST_ANY : Int := -3

/-- `FSM_MAX_STATE_NEST_DEPTH` (fsm.h): capacity of the nest-id array. -/
def FSM_MAX_STATE_NEST_DEPTH : Int := 4

/-- `FSM_EXECUTION_RESULT` (fsm.h). -/
inductive Result where
  | newState
  | noChange
  | noTransition
  | actionFailure
  | internalFailure
deriving DecidableEq, Repr

/-- `FSM_VERIFY_ERROR` (fsm.h); the `NONE` member is never reported. -/
inductive FsmVerifyError where
  | noEntry
  | noExit
deriving DecidableEq, Repr

/-- One logged callback invocation: a condition or action callback together
with the boolean it returned, or an entry/exit callback. -/
inductive CbEvent where
  | cond (id : Nat) (r : Bool)
  | act (id : Nat) (r : Bool)
  | entry (id : Nat)
  | exitA (id : Nat)
deriving DecidableEq, Repr

/-- The application's callback semantics: the result of a condition or action
callback may depend on the invocation history so far. -/
structure Env where
  condRet : List CbEvent → Nat → Bool
  actRet : List CbEvent → Nat → Bool

/-- `FSM_TRANSITION` (fsm.c): target id, sub-state flag, event id, the
condition list and the action list (callback ids, in declaration order). -/
structure FsmTransition where
  iNewStateId : Int
  bSubState : Bool
  iEventId : Int
  conditions : List Nat
  actions : List Nat
deriving DecidableEq, Repr

/-- `FSM_STATE` (fsm.c): id, optional entry/exit callbacks, the transitions in
declaration order, complex-state flag and initial substate id. -/
structure FsmState where
  iStateId : Int
  fpEntryAction : Option Nat
  fpExitAction : Option Nat
  transitions : List FsmTransition
  bComplex : Bool
  iInitialSubStateId : Int
deriving DecidableEq, Repr

/-- `FSM_CB` (fsm.c): the state list (in creation order) and the sticky
creation-error flag. -/
structure FsmCb where
  states : List FsmState
  bCreateError : Bool

/-- `FSM_OBJECT_STATE` (fsm.h).  `iNestedStateIds` is the 4-cell C array as a
total map; indices outside `0..3` are out of bounds of the C array. -/
structure FsmObjectState where
  iNestDepth : Int
  iNestedStateIds : Int → Int
  iPreviousStateId : Int

/-- `_fsmGetState` (fsm.c): first state in the list with the given id. -/
def _fsmGetState (states : List FsmState) (sid : Int) : Option FsmState :=
  states.find? (fun s => s.iStateId == sid)

/-- `_fsmGetTransition` (fsm.c): first transition in the list with the given
event id. -/
def _fsmGetTransition (ts : List FsmTransition) (eid : Int) : Option FsmTransition :=
  ts.find? (fun t => t.iEventId == eid)

/-- The condition-evaluation loop of `_fsmExecuteState` (fsm.c, lines
1049-1063): run the condition callbacks left to right, stopping at the first
one that returns false.  Returns the conjunction and the grown trace. -/
def runConditions (env : Env) (tr : List CbEvent) : List Nat → Bool × List CbEvent
  | [] => (true, tr)
  | c :: rest =>
    let r := env.condRet tr c
    if r then runConditions env (tr ++ [CbEvent.cond c r]) rest
    else (false, tr ++ [CbEvent.cond c r])

/-- The action-execution loop of `_fsmExecuteTransition` (fsm.c, lines
947-967): run the action callbacks in order; a false return stops the loop
unless the transition is a catch transition (`isCatch`), in which case all
actions run and the failure is ignored.  Returns `l_bActionsPass` and the
grown trace. -/
def runActions (env : Env) (isCatch : Bool) (tr : List CbEvent) : List Nat → Bool × List CbEvent
  | [] => (true, tr)
  | a :: rest =>
    let r := env.actRet tr a
    if r then runActions env isCatch (tr ++ [CbEvent.act a r]) rest
    else if isCatch then runActions env isCatch (tr ++ [CbEvent.act a r]) rest
    else (false, tr ++ [CbEvent.act a r])

/-- `_fsmExecuteTransition` (fsm.c): run the transition's actions; on full
success the result is `NO_CHANGE` for a `SAME` target and `NEW_STATE`
otherwise; a (non-catch) action failure gives `ACTION_FAILURE`. -/
def _fsmExecuteTransition (env : Env) (tr : List CbEvent) (t : FsmTransition) :
    Result × List CbEvent :=
  let p := runActions env (t.iEventId == FSM_CATCH_TRANSITION) tr t.actions
  if p.1 then
    (if t.iNewStateId = FSM_ST_SAME then Result.noChange else Result.newState, p.2)
  else (Result.actionFailure, p.2)

/-- The body of the search loop of `_fsmExecuteState` once transition `t`
(at position `i` of the state's transition list) has matched (fsm.c, lines
1067-1089): execute it; on action failure look up the state's catch
transition and, if present, execute that instead.  Returns the result, the
new-target data (`some (iNewStateId, bSubState)` iff the result is
`NEW_STATE`, mirroring lines 1095-1099), the position of the matched
transition, and the trace. -/
def execMatched (env : Env) (st : FsmState) (t : FsmTransition) (i : Nat) (tr : List CbEvent) :
    Result × Option (Int × Bool) × Option Nat × List CbEvent :=
  let p := _fsmExecuteTransition env tr t
  if p.1 = Result.actionFailure then
    match _fsmGetTransition st.transitions FSM_CATCH_TRANSITION with
    | some ct =>
      let q := _fsmExecuteTransition env p.2 ct
      (q.1, if q.1 = Result.newState then some (ct.iNewStateId, ct.bSubState) else none,
        some i, q.2)
    | none => (Result.actionFailure, none, some i, p.2)
  else
    (p.1, if p.1 = Result.newState then some (t.iNewStateId, t.bSubState) else none,
      some i, p.2)

/-- The transition-search loop of `_fsmExecuteState` (fsm.c, lines 1037-1090):
walk the transition list; for each transition whose event id matches, evaluate
its conditions; skip it if they fail, otherwise execute it via `execMatched`.
`i` counts the position in the transition list. -/
def stateLoop (env : Env) (st : FsmState) (eventId : Int) :
    List FsmTransition → Nat → List CbEvent →
    Result × Option (Int × Bool) × Option Nat × List CbEvent
  | [], _, tr => (Result.noTransition, none, none, tr)
  | t :: rest, i, tr =>
    if t.iEventId = eventId then
      let c := runConditions env tr t.conditions
      if c.1 then execMatched env st t i c.2
      else stateLoop env st eventId rest (i + 1) c.2
    else stateLoop env st eventId rest (i + 1) tr

/-- `_fsmExecuteState` (fsm.c): search the state's transition list for a match
for `eventId` and execute the first one whose conditions pass. -/
def _fsmExecuteState (env : Env) (st : FsmState) (eventId : Int) (tr : List CbEvent) :
    Result × Option (Int × Bool) × Option Nat × List CbEvent :=
  stateLoop env st eventId st.transitions 0 tr

/-- Outcome of the nest-scan loop of `fsmExecute` (fsm.c, lines 1145-1164). -/
inductive ScanOutcome where
  | missing (tr : List CbEvent)
  | noMatch (tr : List CbEvent)
  | found (res : Result) (info : Option (Int × Bool)) (d : Nat) (ti : Nat) (tr : List CbEvent)

/-- The nest-scan loop of `fsmExecute` (fsm.c, lines 1145-1164):
`for (cnt = 0; cnt <= iNestDepth; cnt++)` with `rem` remaining iterations and
`cnt` the loop counter.  A stack id with no state object makes the whole call
return `NO_TRANSITION` immediately (`missing`); a state whose execution
returns something other than `NO_TRANSITION` stops the scan (`found`, with
`d` = `l_iStateChangeDepth` and `ti` the matched transition's position);
otherwise the scan continues. -/
def scanNest (env : Env) (states : List FsmState) (stack : Int → Int) (eventId : Int) :
    Nat → Nat → List CbEvent → ScanOutcome
  | _, 0, tr => ScanOutcome.noMatch tr
  | cnt, rem + 1, tr =>
    match _fsmGetState states (stack cnt) with
    | none => ScanOutcome.missing tr
    | some st =>
      let r := _fsmExecuteState env st eventId tr
      if r.1 = Result.noTransition then
        scanNest env states stack eventId (cnt + 1) rem r.2.2.2
      else ScanOutcome.found r.1 r.2.1 cnt ((r.2.2.1).getD 0) r.2.2.2

/-- The index sequence of the state-exit for-loop of `fsmExecute` (fsm.c,
line 1213): `l_iNestDepthCnt` runs from `iNestDepth` down to
`l_iStateChangeDepth`, so `depth - scd + 1` iterations when `depth ≥ scd`
and none otherwise. -/
def exitIdxs (depth : Int) (scd : Int) : List Int :=
  (List.range (depth - scd + 1).toNat).map (fun k => depth - (k : Int))

/-- The state-exit loop of `fsmExecute` (fsm.c, lines 1213-1225): call the
exit callbacks of the states at the given stack indices (a state id with no
state object is silently skipped, as is a state with no exit callback). -/
def exitCalls (states : List FsmState) (stack : Int → Int) (idxs : List Int)
    (tr : List CbEvent) : List CbEvent :=
  idxs.foldl (fun acc i =>
    match _fsmGetState states (stack i) with
    | some st =>
      match st.fpExitAction with
      | some x => acc ++ [CbEvent.exitA x]
      | none => acc
    | none => acc) tr

/-- The state-entry do-while loop of `fsmExecute` (fsm.c, lines 1254-1291):
write the target id into the stack at the current depth, call its entry
callback if the state exists, and while the entered state is complex with a
defined initial substate, push and descend (`INTERNAL_FAILURE` if the depth
is already at `FSM_MAX_STATE_NEST_DEPTH - 1`). -/
def entryLoop (env : Env) (states : List FsmState) (os : FsmObjectState) (newId : Int)
    (tr : List CbEvent) : Result × FsmObjectState × List CbEvent :=
  let os1 : FsmObjectState :=
    { os with iNestedStateIds := fun j => if j = os.iNestDepth then newId else os.iNestedStateIds j }
  match _fsmGetState states newId with
  | none => (Result.newState, os1, tr)
  | some ns =>
    let tr1 := match ns.fpEntryAction with
      | some e => tr ++ [CbEvent.entry e]
      | none => tr
    if _h : ns.bComplex = true ∧ ns.iInitialSubStateId ≠ FSM_ST_SAME then
      if os1.iNestDepth ≥ FSM_MAX_STATE_NEST_DEPTH - 1 then
        (Result.internalFailure, os1, tr1)
      else
        entryLoop env states { os1 with iNestDepth := os1.iNestDepth + 1 }
          ns.iInitialSubStateId tr1
    else (Result.newState, os1, tr1)
  termination_by (FSM_MAX_STATE_NEST_DEPTH - os.iNestDepth).toNat
  decreasing_by
    simp only [FSM_MAX_STATE_NEST_DEPTH] at *
    omega

unseal entryLoop

/-- The `FSM_ST_PARENT` guard in front of state entry (fsm.c, line 1250): a
`PARENT` target performs no entry at all. -/
def entryPhase (env : Env) (states : List FsmState) (os : FsmObjectState) (newId : Int)
    (tr : List CbEvent) : Result × FsmObjectState × List CbEvent :=
  if newId = FSM_ST_PARENT then (Result.newState, os, tr)
  else entryLoop env states os newId tr

/-- The state-change choreography of `fsmExecute` (fsm.c, lines 1187-1293),
performed only when the search produced `NEW_STATE`.  `info` is the matched
target (`l_iNewStateId`, `l_bNewStateIsSubState`), `scd` is
`l_iStateChangeDepth`. -/
def stepD (env : Env) (states : List FsmState) (os : FsmObjectState) (res : Result)
    (info : Option (Int × Bool)) (scd : Nat) (tr : List CbEvent) :
    Result × FsmObjectState × List CbEvent :=
  if res = Result.newState then
    let newId := (info.getD (-1, false)).1
    let isSub := (info.getD (-1, false)).2
    let os1 : FsmObjectState :=
      { os with iPreviousStateId := os.iNestedStateIds os.iNestDepth }
    if isSub then
      if os1.iNestDepth ≥ FSM_MAX_STATE_NEST_DEPTH then
        (Result.internalFailure, os1, tr)
      else
        entryPhase env states { os1 with iNestDepth := os1.iNestDepth + 1 } newId tr
    else
      let tr2 := exitCalls states os1.iNestedStateIds
        (exitIdxs os1.iNestDepth (scd : Int)) tr
      let os2 : FsmObjectState :=
        if newId = FSM_ST_PARENT then
          if os1.iNestDepth > 0 then { os1 with iNestDepth := os1.iNestDepth - 1 } else os1
        else { os1 with iNestDepth := (scd : Int) }
      entryPhase env states os2 newId tr2
  else (res, os, tr)

/-- Where `fsmExecute` found its matched transition: at nest index `d`,
transition position `ti` of that state's list, or on the ANY-state.  This is
a ghost observation recording the engine's selection; it does not influence
the computation. -/
inductive MatchLoc where
  | atDepth (d : Nat) (ti : Nat)
  | atAny (ti : Nat)
deriving DecidableEq, Repr

/-- `fsmExecute` (fsm.c): reject the reserved catch event id, scan the active
nest for a match, fall back to the ANY-state, then perform the state-change
choreography when a new state was produced.  Returns the result, the updated
object state, the callback trace, and the ghost match location. -/
def fsmExecute (env : Env) (fsm : FsmCb) (os : FsmObjectState) (eventId : Int) :
    Result × FsmObjectState × List CbEvent × Option MatchLoc :=
  if eventId = FSM_CATCH_TRANSITION then (Result.noTransition, os, [], none)
  else
    match scanNest env fsm.states os.iNestedStateIds eventId 0 (os.iNestDepth + 1).toNat [] with
    | ScanOutcome.missing tr => (Result.noTransition, os, tr, none)
    | ScanOutcome.noMatch tr =>
      match _fsmGetState fsm.states FSM_ST_ANY with
      | none => (Result.noTransition, os, tr, none)
      | some anySt =>
        let r := _fsmExecuteState env anySt eventId tr
        let s := stepD env fsm.states os r.1 r.2.1 0 r.2.2.2
        (s.1, s.2.1, s.2.2, (r.2.2.1).map MatchLoc.atAny)
    | ScanOutcome.found res info d ti tr =>
      let s := stepD env fsm.states os res info d tr
      (s.1, s.2.1, s.2.2, some (MatchLoc.atDepth d ti))

/-- `_fsmIsStateEntered` (fsm.c): is some transition of some state targeting
the given id? -/
def _fsmIsStateEntered (states : List FsmState) (sid : Int) : Bool :=
  states.any (fun s => s.transitions.any (fun t => t.iNewStateId == sid))

/-- `_fsmIsStateExitted` (fsm.c): does some state with the given id have a
transition to a different, non-`SAME` id? -/
def _fsmIsStateExitted (states : List FsmState) (sid : Int) : Bool :=
  states.any (fun s => s.iStateId == sid &&
    s.transitions.any (fun t => t.iNewStateId != sid && t.iNewStateId != FSM_ST_SAME))

/-- `fsmVerifyFsm` (fsm.c): two passes over the state list; the first reports
`NOENTRY` for every non-ANY state never entered, the second reports `NOEXIT`
for every transition target `≥ 0` that is never exitted.  The callback is
modelled by collecting the reported `(stateId, error)` pairs in order;
`l_bRc` is the returned boolean. -/
def fsmVerifyFsm (fsm : FsmCb) : Bool × List (Int × FsmVerifyError) :=
  let r1 := fsm.states.foldl (fun acc s =>
    if s.iStateId != FSM_ST_ANY && !(_fsmIsStateEntered fsm.states s.iStateId) then
      (false, acc.2 ++ [(s.iStateId, FsmVerifyError.noEntry)])
    else acc) (true, ([] : List (Int × FsmVerifyError)))
  fsm.states.foldl (fun acc s =>
    s.transitions.foldl (fun acc2 t =>
      if decide (t.iNewStateId ≥ 0) && !(_fsmIsStateExitted fsm.states t.iNewStateId) then
        (false, acc2.2 ++ [(t.iNewStateId, FsmVerifyError.noExit)])
      else acc2) acc) r1

/-- `fsmCatchTransition` (fsm.c): adding a catch transition to a state fails
if the state already has one; otherwise a transition with event id
`FSM_CATCH_TRANSITION`, no conditions and `bSubState = false` is appended.
`bCreateError` is the graph's sticky flag before the call; the returned
boolean/state/flag are the call's return value, the updated state and the
flag after the call (allocation is modelled as always succeeding). -/
def fsmCatchTransition (st : FsmState) (bCreateError : Bool) (newStateId : Int)
    (actions : List Nat) : Bool × FsmState × Bool :=
  match _fsmGetTransition st.transitions FSM_CATCH_TRANSITION with
  | some _ => (false, st, bCreateError)
  | none =>
    (true,
      { st with transitions := st.transitions ++
          [{ iNewStateId := newStateId, bSubState := false,
             iEventId := FSM_CATCH_TRANSITION, conditions := [], actions := actions }] },
      bCreateError)

/-- Modelled from the spec (§4.3 Step A, second sentence): within one state,
try the same-event transitions in declaration order, evaluating each
candidate's condition chain; a candidate whose chain fails is skipped, the
first all-true candidate is the match.  `i` counts the position in the
transition list; returns the matched position (if any) and the trace. -/
def specFindInState (env : Env) (eventId : Int) :
    List FsmTransition → Nat → List CbEvent → Option Nat × List CbEvent
  | [], _, tr => (none, tr)
  | t :: rest, i, tr =>
    if t.iEventId = eventId then
      let c := runConditions env tr t.conditions
      if c.1 then (some i, c.2)
      else specFindInState env eventId rest (i + 1) c.2
    else specFindInState env eventId rest (i + 1) tr

/-- Modelled from the spec (§4.3 Step A, first sentence): scan active nest
indices outermost-first; at the first index whose state has a matching
transition with an all-true condition chain, stop — that index and that
transition's position are the match. -/
def specScan (env : Env) (states : List FsmState) (stack : Int → Int) (eventId : Int) :
    Nat → Nat → List CbEvent → Option (Nat × Nat) × List CbEvent
  | _, 0, tr => (none, tr)
  | cnt, rem + 1, tr =>
    match _fsmGetState states (stack cnt) with
    | none => (none, tr)
    | some st =>
      let p := specFindInState env eventId st.transitions 0 tr
      match p.1 with
      | some ti => (some (cnt, ti), p.2)
      | none => specScan env states stack eventId (cnt + 1) rem p.2

/-! ### Concrete graphs, object states and environments used as test inputs -/

/-- Environment in which every condition and action callback succeeds. -/
def envAllPass : Env := ⟨fun _ _ => true, fun _ _ => true⟩

/-- Environment in which action callback 0 fails and every other callback
succeeds. -/
def envAct0Fails : Env := ⟨fun _ _ => true, fun _ a => a != 0⟩

/-- State 0 with a single sub-state transition on event 5 to state 1. -/
def stC2w : FsmState := ⟨0, none, none, [⟨1, true, 5, [], []⟩], false, -1⟩

/-- Graph holding only `stC2w`. -/
def fsmC2w : FsmCb := ⟨[stC2w], false⟩

/-- Object state already at nest depth 3, all stack cells holding state 0. -/
def osC2w : FsmObjectState := ⟨3, fun _ => 0, -1⟩

/-- A plain state with id 2 and no transitions. -/
def stIdleW : FsmState := ⟨2, none, none, [], false, -1⟩

/-- An ANY-state whose event-5 transition (to state 7) runs the failing action
0, and which carries a catch transition to state 9 running action 1. -/
def stAnyW : FsmState :=
  ⟨-3, none, none, [⟨7, false, 5, [], [0]⟩, ⟨9, false, -1, [], [1]⟩], false, -1⟩

/-- Graph with the transitionless state 2 and the catch-carrying ANY-state. -/
def fsmC4w : FsmCb := ⟨[stIdleW, stAnyW], false⟩

/-- Object state resting at depth 0 in state 2. -/
def osC4w : FsmObjectState := ⟨0, fun _ => 2, -1⟩

/-- An ANY-state with the same failing event-5 transition but no catch. -/
def stAnyNCw : FsmState := ⟨-3, none, none, [⟨7, false, 5, [], [0]⟩], false, -1⟩

/-- Graph with the transitionless state 2 and the catchless ANY-state. -/
def fsmC4nw : FsmCb := ⟨[stIdleW, stAnyNCw], false⟩

/-- An empty graph. -/
def fsmEmptyW : FsmCb := ⟨[], false⟩

/-- Object state at depth 0 whose current state id 1 exists in no graph used
with it. -/
def osMissW : FsmObjectState := ⟨0, fun _ => 1, -1⟩

/-- Start state for the complex-descent scenario: a transition on event 5 to
the complex state 10. -/
def stS6w : FsmState := ⟨3, none, none, [⟨10, false, 5, [], []⟩], false, -1⟩

/-- Complex state 10 (entry callback 100) with initial substate 11. -/
def stA6w : FsmState := ⟨10, some 100, none, [], true, 11⟩

/-- Complex state 11 (entry callback 101) with initial substate 12. -/
def stB6w : FsmState := ⟨11, some 101, none, [], true, 12⟩

/-- Plain state 12 (entry callback 102). -/
def stC6w : FsmState := ⟨12, some 102, none, [], false, -1⟩

/-- Graph for the complex-descent scenario. -/
def fsmC6w : FsmCb := ⟨[stS6w, stA6w, stB6w, stC6w], false⟩

/-- Object state at depth 0 in state 3. -/
def osC6w : FsmObjectState := ⟨0, fun _ => 3, -1⟩

/-- Start state for the absent-entry-target scenario: a transition on event 5
to state 50, which exists in no graph used with it. -/
def stS7w : FsmState := ⟨3, none, none, [⟨50, false, 5, [], []⟩], false, -1⟩

/-- Graph holding only `stS7w`; its transition target 50 is absent. -/
def fsmC7w : FsmCb := ⟨[stS7w], false⟩

/-- Object state at depth 0 in state 3. -/
def osC7w : FsmObjectState := ⟨0, fun _ => 3, -1⟩

/-- A state that already carries a catch transition (to state 5). -/
def stC9w : FsmState := ⟨7, none, none, [⟨5, false, -1, [], []⟩], false, -1⟩

/-- An ANY-state with an unconditional event-5 transition to state 8. -/
def stAnyUncondW : FsmState := ⟨-3, none, none, [⟨8, false, 5, [], []⟩], false, -1⟩

/-- Graph holding only the enabled ANY-state `stAnyUncondW`. -/
def fsmC10w : FsmCb := ⟨[stAnyUncondW], false⟩

/-- Object state at depth 0 whose current state id 99 is absent from the
graph. -/
def osC10w : FsmObjectState := ⟨0, fun _ => 99, -1⟩

/-- A transition on event 5 to state 6 whose actions are 0 (failing) then 3. -/
def tC3w : FsmTransition := ⟨6, false, 5, [], [0, 3]⟩

/-- A catch transition to state 9 running action 1. -/
def ctC3w : FsmTransition := ⟨9, false, -1, [], [1]⟩

/-- State 4 with the failing transition `tC3w` and the catch `ctC3w`. -/
def stC3w : FsmState := ⟨4, none, none, [tC3w, ctC3w], false, -1⟩

/-- State 10 with an unconditional event-5 transition (used at nest index 0). -/
def st10w : FsmState := ⟨10, none, none, [⟨20, false, 5, [], []⟩], false, -1⟩

/-- State 11 with an unconditional event-5 transition (used at nest index 1). -/
def st11w : FsmState := ⟨11, none, none, [⟨21, false, 5, [], []⟩], false, -1⟩

/-- Graph with states 10 and 11. -/
def fsmC1w : FsmCb := ⟨[st10w, st11w], false⟩

/-- Object state at depth 1 with stack `[10, 11]`. -/
def osC1w : FsmObjectState := ⟨1, fun j => if j = 0 then 10 else 11, -1⟩

/-- State 0 with a transition to state 1 (so state 0 is never entered). -/
def stV1w : FsmState := ⟨0, none, none, [⟨1, false, 5, [], []⟩], false, -1⟩

/-- State 1 with no transitions (so state 1 is never exitted). -/
def stV2w : FsmState := ⟨1, none, none, [], false, -1⟩

/-- Graph exhibiting both a NoEntry and a NoExit violation. -/
def fsmC8w : FsmCb := ⟨[stV1w, stV2w], false⟩

/-! ### Theorems -/

/-- Claim C2 evaluated at the failing input: with the object state already at
nest depth 3 (`= FSM_MAX_STATE_NEST_DEPTH - 1`) and a matched sub-state
transition, `fsmExecute` does NOT return `InternalFailure`; it returns
`NewState`, increments the depth to 4 and writes the target id at stack index
4 — outside the 4-element C array. -/
theorem c2_substate_push_at_depth3_overflows :
    (fsmExecute envAllPass fsmC2w osC2w 5).1 = Result.newState ∧
    (fsmExecute envAllPass fsmC2w osC2w 5).2.1.iNestDepth = 4 ∧
    (fsmExecute envAllPass fsmC2w osC2w 5).2.1.iNestedStateIds 4 = 1 :=
  ⟨rfl, rfl, rfl⟩

/-- Claim C10: if the nest scan hits a stack id with no state object before
any match, `fsmExecute` returns `NoTransition` immediately: the object state
is returned unchanged, the trace stops where the scan stopped (so neither
deeper nest indices nor the ANY-state are consulted) and no transition is
selected. -/
theorem c10_missing_state_aborts_scan (env : Env) (fsm : FsmCb) (os : FsmObjectState)
    (eventId : Int) (trS : List CbEvent)
    (hev : eventId ≠ FSM_CATCH_TRANSITION)
    (hmiss : scanNest env fsm.states os.iNestedStateIds eventId 0 (os.iNestDepth + 1).toNat [] =
      ScanOutcome.missing trS) :
    fsmExecute env fsm os eventId = (Result.noTransition, os, trS, none) := by
  unfold fsmExecute
  rw [if_neg hev, hmiss]

/-- Witness for C10: a graph whose ANY-state has an enabled transition for
event 5, while the object's current state id 99 is absent: the call still
returns `NoTransition` with an empty trace and an unchanged object state. -/
theorem c10_missing_state_aborts_scan_witness :
    fsmExecute envAllPass fsmC10w osC10w 5 = (Result.noTransition, osC10w, [], none) :=
  c10_missing_state_aborts_scan envAllPass fsmC10w osC10w 5 [] (by decide) rfl

/-- Counterexample to claim C9 as stated: calling `fsmCatchTransition` on a
state that already has a catch transition does return failure and leaves the
state unchanged, but the sticky creation-error flag stays `false` — it is not
set, contrary to the claim. -/
theorem c9_counterexample_flag_not_set :
    (fsmCatchTransition stC9w false 9 []).1 = false ∧
    (fsmCatchTransition stC9w false 9 []).2.1 = stC9w ∧
    (fsmCatchTransition stC9w false 9 []).2.2 = false :=
  ⟨rfl, rfl, rfl⟩

/-- Claim C9 (amended): calling `fsmCatchTransition` on a state that already
has a catch transition fails, adds nothing, and leaves the sticky
creation-error flag exactly as it was — the flag is not set. -/
theorem c9_duplicate_catch_rejected (st : FsmState) (err : Bool) (tgt : Int)
    (acts : List Nat)
    (h : (_fsmGetTransition st.transitions FSM_CATCH_TRANSITION).isSome = true) :
    fsmCatchTransition st err tgt acts = (false, st, err) := by
  obtain ⟨t, ht⟩ := Option.isSome_iff_exists.mp h
  unfold fsmCatchTransition
  rw [ht]

/-- Witness for the amended C9 at a state with an existing catch transition. -/
theorem c9_duplicate_catch_rejected_witness :
    (_fsmGetTransition stC9w.transitions FSM_CATCH_TRANSITION).isSome = true ∧
    fsmCatchTransition stC9w false 9 [] = (false, stC9w, false) :=
  ⟨rfl, c9_duplicate_catch_rejected stC9w false 9 [] rfl⟩

/-- Counterexample to claim C4 as stated: with no active-nest match, a
matched ANY-state transition whose action 0 fails, and a catch transition on
the ANY-state itself, `fsmExecute` consults that catch transition: the
result is `NewState` (not `ActionFailure`), the catch's target 9 is entered,
and the trace shows the catch's action 1 running after the failed action 0. -/
theorem c4_counterexample_any_catch_consulted :
    (fsmExecute envAct0Fails fsmC4w osC4w 5).1 = Result.newState ∧
    (fsmExecute envAct0Fails fsmC4w osC4w 5).2.1.iNestedStateIds 0 = 9 ∧
    (fsmExecute envAct0Fails fsmC4w osC4w 5).2.2.1 =
      [CbEvent.act 0 false, CbEvent.act 1 true] :=
  ⟨rfl, rfl, rfl⟩

/-- The entry loop only ever produces `NEW_STATE` or `INTERNAL_FAILURE`
(induction on an upper bound of the remaining recursion depth). -/
theorem entryLoop_result_aux (env : Env) (states : List FsmState) :
    ∀ (m : Nat) (os : FsmObjectState) (newId : Int) (tr : List CbEvent),
      (FSM_MAX_STATE_NEST_DEPTH - os.iNestDepth).toNat ≤ m →
      (entryLoop env states os newId tr).1 = Result.newState ∨
      (entryLoop env states os newId tr).1 = Result.internalFailure := by
  intro m
  induction m with
  | zero =>
    intro os newId tr hm
    rw [entryLoop.eq_def]
    dsimp only
    repeat' split
    all_goals try simp_all
    all_goals (exfalso; simp_all [FSM_MAX_STATE_NEST_DEPTH]; omega)
  | succ m ih =>
    intro os newId tr hm
    rw [entryLoop.eq_def]
    dsimp only
    repeat' split
    all_goals try simp_all
    all_goals (apply ih; simp_all [FSM_MAX_STATE_NEST_DEPTH]; omega)

/-- The entry loop only ever produces `NEW_STATE` or `INTERNAL_FAILURE`. -/
theorem entryLoop_result (env : Env) (states : List FsmState) (os : FsmObjectState)
    (newId : Int) (tr : List CbEvent) :
    (entryLoop env states os newId tr).1 = Result.newState ∨
    (entryLoop env states os newId tr).1 = Result.internalFailure :=
  entryLoop_result_aux env states _ os newId tr (Nat.le_refl _)

/-- The entry phase only ever produces `NEW_STATE` or `INTERNAL_FAILURE`. -/
theorem entryPhase_result (env : Env) (states : List FsmState) (os : FsmObjectState)
    (newId : Int) (tr : List CbEvent) :
    (entryPhase env states os newId tr).1 = Result.newState ∨
    (entryPhase env states os newId tr).1 = Result.internalFailure := by
  unfold entryPhase
  split
  · exact Or.inl rfl
  · exact entryLoop_result env states os newId tr

/-- The choreography step is skipped entirely when the search result is not
`NEW_STATE`. -/
theorem stepD_of_ne_newState (env : Env) (states : List FsmState) (os : FsmObjectState)
    (res : Result) (info : Option (Int × Bool)) (scd : Nat) (tr : List CbEvent)
    (h : res ≠ Result.newState) :
    stepD env states os res info scd tr = (res, os, tr) := by
  unfold stepD
  rw [if_neg h]

/-- When the search result is `NEW_STATE`, the choreography step produces
either `NEW_STATE` or `INTERNAL_FAILURE`. -/
theorem stepD_newState_result (env : Env) (states : List FsmState) (os : FsmObjectState)
    (res : Result) (info : Option (Int × Bool)) (scd : Nat) (tr : List CbEvent)
    (h : res = Result.newState) :
    (stepD env states os res info scd tr).1 = Result.newState ∨
    (stepD env states os res info scd tr).1 = Result.internalFailure := by
  unfold stepD
  rw [if_pos h]
  dsimp only
  split
  · split
    · exact Or.inr rfl
    · exact entryPhase_result _ _ _ _ _
  · exact entryPhase_result _ _ _ _ _

/-- If the choreography step's result is `NoChange`, `NoTransition` or
`ActionFailure`, the object state it returns is the input one. -/
theorem stepD_os_of_bad (env : Env) (states : List FsmState) (os : FsmObjectState)
    (res : Result) (info : Option (Int × Bool)) (scd : Nat) (tr : List CbEvent)
    (h : (stepD env states os res info scd tr).1 = Result.noChange ∨
         (stepD env states os res info scd tr).1 = Result.noTransition ∨
         (stepD env states os res info scd tr).1 = Result.actionFailure) :
    (stepD env states os res info scd tr).2.1 = os := by
  by_cases hres : res = Result.newState
  · rcases stepD_newState_result env states os res info scd tr hres with h1 | h1 <;>
      rcases h with h2 | h2 | h2 <;> rw [h1] at h2 <;> exact absurd h2 (by decide)
  · rw [stepD_of_ne_newState env states os res info scd tr hres]

/-- Claim C5: whenever `fsmExecute` returns `NoChange`, `NoTransition` or
`ActionFailure`, the caller's object state record is returned completely
unchanged (nest depth, every stack entry, and the previous-state id). -/
theorem c5_no_mutation_unless_new_state (env : Env) (fsm : FsmCb) (os : FsmObjectState)
    (eventId : Int)
    (h : (fsmExecute env fsm os eventId).1 = Result.noChange ∨
         (fsmExecute env fsm os eventId).1 = Result.noTransition ∨
         (fsmExecute env fsm os eventId).1 = Result.actionFailure) :
    (fsmExecute env fsm os eventId).2.1 = os := by
  unfold fsmExecute at h ⊢
  by_cases hev : eventId = FSM_CATCH_TRANSITION
  · rw [if_pos hev]
  · rw [if_neg hev] at h ⊢
    cases hscan : scanNest env fsm.states os.iNestedStateIds eventId 0
        (os.iNestDepth + 1).toNat [] with
    | missing tr => rfl
    | noMatch tr =>
      rw [hscan] at h
      cases hany : _fsmGetState fsm.states FSM_ST_ANY with
      | none => rfl
      | some anySt =>
        rw [hany] at h
        exact stepD_os_of_bad _ _ _ _ _ _ _ h
    | found res info d ti tr =>
      rw [hscan] at h
      exact stepD_os_of_bad _ _ _ _ _ _ _ h

/-- Witness for C5: a `NoTransition` call returns the object state intact. -/
theorem c5_no_mutation_unless_new_state_witness :
    (fsmExecute envAllPass fsmEmptyW osMissW 5).1 = Result.noTransition ∧
    (fsmExecute envAllPass fsmEmptyW osMissW 5).2.1 = osMissW :=
  ⟨rfl, c5_no_mutation_unless_new_state envAllPass fsmEmptyW osMissW 5 (Or.inr (Or.inl rfl))⟩

/-- Claim C7: (1) in the entry phase, a non-`PARENT` target id with no state
object in the graph is written into the stack at the current depth, no entry
callback runs, no descent happens, and the result is still `NewState`;
(2) lifted to `fsmExecute`: a matched transition to an absent state id
returns `NewState`, leaves the depth at the match depth, writes the absent id
into the stack, and invokes no callback at all. -/
theorem c7_absent_entry_target :
    (∀ (env : Env) (states : List FsmState) (os : FsmObjectState) (newId : Int)
        (tr : List CbEvent),
      newId ≠ FSM_ST_PARENT →
      _fsmGetState states newId = none →
      entryPhase env states os newId tr =
        (Result.newState,
         { os with iNestedStateIds :=
            fun j => if j = os.iNestDepth then newId else os.iNestedStateIds j },
         tr)) ∧
    (∀ (env : Env) (fsm : FsmCb) (os : FsmObjectState) (e s0 X : Int) (stS : FsmState),
      e ≠ FSM_CATCH_TRANSITION →
      os.iNestDepth = 0 →
      os.iNestedStateIds 0 = s0 →
      _fsmGetState fsm.states s0 = some stS →
      stS.transitions = [⟨X, false, e, [], []⟩] →
      stS.fpExitAction = none →
      _fsmGetState fsm.states X = none →
      X ≠ FSM_ST_SAME →
      X ≠ FSM_ST_PARENT →
      (fsmExecute env fsm os e).1 = Result.newState ∧
      (fsmExecute env fsm os e).2.1.iNestDepth = 0 ∧
      (fsmExecute env fsm os e).2.1.iNestedStateIds 0 = X ∧
      (fsmExecute env fsm os e).2.2.1 = []) := by
  constructor
  · intro env states os newId tr h1 h2
    unfold entryPhase
    rw [if_neg h1]
    unfold entryLoop
    rw [h2]
  · intro env fsm os e s0 X stS hev hd hs0 hS hTr hSx hX hX1 hX2
    have hrem : (os.iNestDepth + 1).toNat = 1 := by rw [hd]; rfl
    have hscan : scanNest env fsm.states os.iNestedStateIds e 0 (os.iNestDepth + 1).toNat [] =
        ScanOutcome.found Result.newState (some (X, false)) 0 0 [] := by
      rw [hrem]
      unfold scanNest
      simp only [Nat.cast_zero, hs0, hS]
      unfold _fsmExecuteState
      rw [hTr]
      unfold stateLoop execMatched _fsmExecuteTransition runActions runConditions
      simp [hX1, hev]
    have hload : fsmExecute env fsm os e =
        (let s := stepD env fsm.states os Result.newState (some (X, false)) 0 [];
         (s.1, s.2.1, s.2.2, some (MatchLoc.atDepth 0 0))) := by
      unfold fsmExecute
      rw [if_neg hev, hscan]
    have hidx : exitIdxs 0 0 = [0] := by decide
    have hexits : exitCalls fsm.states os.iNestedStateIds [0] [] = [] := by
      unfold exitCalls
      simp [hs0, hS, hSx]
    have hstep : stepD env fsm.states os Result.newState (some (X, false)) 0 [] =
        entryLoop env fsm.states
          { iNestDepth := 0, iNestedStateIds := os.iNestedStateIds,
            iPreviousStateId := os.iNestedStateIds os.iNestDepth } X [] := by
      unfold stepD
      dsimp only
      rw [if_pos rfl]
      simp only [hd, Option.getD_some, Bool.false_eq_true, if_false, Nat.cast_zero,
        hidx, hexits]
      rw [if_neg hX2]
      unfold entryPhase
      rw [if_neg hX2]
    rw [hload]
    simp only [hstep]
    rw [entryLoop.eq_def, hX]
    simp [hd]

/-- Witness for C7 at a concrete graph whose transition target 50 is absent:
both the entry-phase statement and the full-execution statement hold. -/
theorem c7_absent_entry_target_witness :
    (entryPhase envAllPass fsmC7w.states osC7w 50 [] =
      (Result.newState,
       { osC7w with iNestedStateIds :=
          fun j => if j = osC7w.iNestDepth then 50 else osC7w.iNestedStateIds j },
       [])) ∧
    ((fsmExecute envAllPass fsmC7w osC7w 5).1 = Result.newState ∧
     (fsmExecute envAllPass fsmC7w osC7w 5).2.1.iNestDepth = 0 ∧
     (fsmExecute envAllPass fsmC7w osC7w 5).2.1.iNestedStateIds 0 = 50 ∧
     (fsmExecute envAllPass fsmC7w osC7w 5).2.2.1 = []) :=
  ⟨c7_absent_entry_target.1 envAllPass fsmC7w.states osC7w 50 [] (by decide) rfl,
   c7_absent_entry_target.2 envAllPass fsmC7w osC7w 5 3 50 stS7w (by decide) rfl rfl rfl rfl
     rfl rfl (by decide) (by decide)⟩

/-- Claim C6: entering complex state `A` (initial substate `B`), where `B` is
itself complex (initial substate `C`) and `C` is not complex, via a
non-sub-state transition matched at depth 0, leaves the active stack
`[A, B, C]` with nest depth 2 and runs the entry callbacks in the order
`A`, `B`, `C`. -/
theorem c6_complex_entry_descends (env : Env) (fsm : FsmCb) (os : FsmObjectState)
    (e s0 A B C : Int) (stS stA stB stC : FsmState) (ea eb ec : Nat)
    (hev : e ≠ FSM_CATCH_TRANSITION)
    (hd : os.iNestDepth = 0)
    (hs0 : os.iNestedStateIds 0 = s0)
    (hS : _fsmGetState fsm.states s0 = some stS)
    (hTr : stS.transitions = [⟨A, false, e, [], []⟩])
    (hSx : stS.fpExitAction = none)
    (hA : _fsmGetState fsm.states A = some stA)
    (hAc : stA.bComplex = true) (hAi : stA.iInitialSubStateId = B)
    (hAe : stA.fpEntryAction = some ea)
    (hB : _fsmGetState fsm.states B = some stB)
    (hBc : stB.bComplex = true) (hBi : stB.iInitialSubStateId = C)
    (hBe : stB.fpEntryAction = some eb)
    (hC : _fsmGetState fsm.states C = some stC)
    (hCc : stC.bComplex = false) (hCe : stC.fpEntryAction = some ec)
    (hA1 : A ≠ FSM_ST_SAME) (hA2 : A ≠ FSM_ST_PARENT)
    (hB1 : B ≠ FSM_ST_SAME) (hC1 : C ≠ FSM_ST_SAME) :
    (fsmExecute env fsm os e).1 = Result.newState ∧
    (fsmExecute env fsm os e).2.1.iNestDepth = 2 ∧
    (fsmExecute env fsm os e).2.1.iNestedStateIds 0 = A ∧
    (fsmExecute env fsm os e).2.1.iNestedStateIds 1 = B ∧
    (fsmExecute env fsm os e).2.1.iNestedStateIds 2 = C ∧
    (fsmExecute env fsm os e).2.2.1 =
      [CbEvent.entry ea, CbEvent.entry eb, CbEvent.entry ec] := by
  have hrem : (os.iNestDepth + 1).toNat = 1 := by rw [hd]; rfl
  have hscan : scanNest env fsm.states os.iNestedStateIds e 0 (os.iNestDepth + 1).toNat [] =
      ScanOutcome.found Result.newState (some (A, false)) 0 0 [] := by
    rw [hrem]
    unfold scanNest
    simp only [Nat.cast_zero, hs0, hS]
    unfold _fsmExecuteState
    rw [hTr]
    unfold stateLoop execMatched _fsmExecuteTransition runActions runConditions
    simp [hA1, hev]
  have hload : fsmExecute env fsm os e =
      (let s := stepD env fsm.states os Result.newState (some (A, false)) 0 [];
       (s.1, s.2.1, s.2.2, some (MatchLoc.atDepth 0 0))) := by
    unfold fsmExecute
    rw [if_neg hev, hscan]
  have hidx : exitIdxs 0 0 = [0] := by decide
  have hexits : exitCalls fsm.states os.iNestedStateIds [0] [] = [] := by
    unfold exitCalls
    simp [hs0, hS, hSx]
  have hstep : stepD env fsm.states os Result.newState (some (A, false)) 0 [] =
      entryLoop env fsm.states
        { iNestDepth := 0, iNestedStateIds := os.iNestedStateIds,
          iPreviousStateId := os.iNestedStateIds os.iNestDepth } A [] := by
    unfold stepD
    dsimp only
    rw [if_pos rfl]
    simp only [hd, Option.getD_some, Bool.false_eq_true, if_false, Nat.cast_zero,
      hidx, hexits]
    rw [if_neg hA2]
    unfold entryPhase
    rw [if_neg hA2]
  have hCstep : ∀ (st : Int → Int) (p : Int) (tr : List CbEvent),
      entryLoop env fsm.states ⟨2, st, p⟩ C tr =
        (Result.newState, ⟨2, fun j => if j = 2 then C else st j, p⟩,
         tr ++ [CbEvent.entry ec]) := by
    intro st p tr
    rw [entryLoop.eq_def]
    dsimp only
    rw [hC]
    dsimp only
    rw [hCe]
    simp [hCc]
  have hBstep : ∀ (st : Int → Int) (p : Int) (tr : List CbEvent),
      entryLoop env fsm.states ⟨1, st, p⟩ B tr =
        (Result.newState,
         ⟨2, fun j => if j = 2 then C else if j = 1 then B else st j, p⟩,
         tr ++ [CbEvent.entry eb, CbEvent.entry ec]) := by
    intro st p tr
    rw [entryLoop.eq_def]
    dsimp only
    rw [hB]
    dsimp only
    rw [hBe]
    dsimp only
    rw [dif_pos ⟨hBc, by rw [hBi]; exact hC1⟩]
    rw [if_neg (by norm_num [FSM_MAX_STATE_NEST_DEPTH])]
    rw [hBi]
    norm_num
    rw [hCstep]
    simp
  have hAstep : ∀ (st : Int → Int) (p : Int) (tr : List CbEvent),
      entryLoop env fsm.states ⟨0, st, p⟩ A tr =
        (Result.newState,
         ⟨2, fun j => if j = 2 then C else if j = 1 then B
             else if j = 0 then A else st j, p⟩,
         tr ++ [CbEvent.entry ea, CbEvent.entry eb, CbEvent.entry ec]) := by
    intro st p tr
    rw [entryLoop.eq_def]
    dsimp only
    rw [hA]
    dsimp only
    rw [hAe]
    dsimp only
    rw [dif_pos ⟨hAc, by rw [hAi]; exact hB1⟩]
    rw [if_neg (by norm_num [FSM_MAX_STATE_NEST_DEPTH])]
    rw [hAi]
    norm_num
    rw [hBstep]
    simp
  rw [hload]
  simp only [hstep]
  rw [hAstep]
  norm_num

/-- Witness for C6 at the concrete graph `fsmC6w` (state 3 transitions on
event 5 to complex state 10, with default chain 10 → 11 → 12). -/
theorem c6_complex_entry_descends_witness :
    (fsmExecute envAllPass fsmC6w osC6w 5).1 = Result.newState ∧
    (fsmExecute envAllPass fsmC6w osC6w 5).2.1.iNestDepth = 2 ∧
    (fsmExecute envAllPass fsmC6w osC6w 5).2.1.iNestedStateIds 0 = 10 ∧
    (fsmExecute envAllPass fsmC6w osC6w 5).2.1.iNestedStateIds 1 = 11 ∧
    (fsmExecute envAllPass fsmC6w osC6w 5).2.1.iNestedStateIds 2 = 12 ∧
    (fsmExecute envAllPass fsmC6w osC6w 5).2.2.1 =
      [CbEvent.entry 100, CbEvent.entry 101, CbEvent.entry 102] :=
  c6_complex_entry_descends envAllPass fsmC6w osC6w 5 3 10 11 12 stS6w stA6w stB6w stC6w
    100 101 102 (by decide) rfl rfl rfl rfl rfl rfl rfl rfl rfl rfl rfl rfl rfl rfl
    rfl rfl (by decide) (by decide) (by decide) (by decide)

/-- A failing run of a non-catch action list logs exactly the passing prefix
and the failing action, and nothing after it. -/
theorem runActions_fail_split (env : Env) :
    ∀ (acts : List Nat) (tr : List CbEvent),
      (runActions env false tr acts).1 = false →
      ∃ pre a post, acts = pre ++ a :: post ∧
        (runActions env false tr acts).2 =
          tr ++ pre.map (fun x => CbEvent.act x true) ++ [CbEvent.act a false] := by
  intro acts
  induction acts with
  | nil => intro tr h; simp [runActions] at h
  | cons a0 rest ih =>
    intro tr h
    unfold runActions at h ⊢
    dsimp only at h ⊢
    cases hr : env.actRet tr a0 with
    | true =>
      simp only [hr, eq_self_iff_true, if_true] at h ⊢
      obtain ⟨pre, a, post, hsplit, htr⟩ := ih _ h
      exact ⟨a0 :: pre, a, post, by rw [hsplit]; simp, by rw [htr]; simp⟩
    | false =>
      simp only [hr, Bool.false_eq_true, if_false] at h ⊢
      exact ⟨[], a0, rest, rfl, by simp⟩

/-- A catch-transition action list always runs to completion: every action is
logged (with whatever result it returned) and the overall run passes. -/
theorem runActions_catch_all (env : Env) :
    ∀ (acts : List Nat) (tr : List CbEvent),
      ∃ rs, rs.length = acts.length ∧
        runActions env true tr acts =
          (true, tr ++ (acts.zip rs).map (fun p => CbEvent.act p.1 p.2)) := by
  intro acts
  induction acts with
  | nil => intro tr; exact ⟨[], rfl, by simp [runActions]⟩
  | cons a0 rest ih =>
    intro tr
    cases hr : env.actRet tr a0 with
    | true =>
      obtain ⟨rs, hlen, hrun⟩ := ih (tr ++ [CbEvent.act a0 true])
      refine ⟨true :: rs, by simp [hlen], ?_⟩
      unfold runActions
      dsimp only
      rw [hr]
      simp only [if_pos rfl]
      rw [hrun]
      simp
    | false =>
      obtain ⟨rs, hlen, hrun⟩ := ih (tr ++ [CbEvent.act a0 false])
      refine ⟨false :: rs, by simp [hlen], ?_⟩
      unfold runActions
      dsimp only
      rw [hr]
      simp only [Bool.false_eq_true, if_false, if_pos rfl]
      rw [hrun]
      simp

/-- Executing a catch transition never fails: its result is determined by its
target alone and every one of its actions is logged. -/
theorem execTransition_catch (env : Env) (tr : List CbEvent) (ct : FsmTransition)
    (hct : ct.iEventId = FSM_CATCH_TRANSITION) :
    ∃ rs, rs.length = ct.actions.length ∧
      _fsmExecuteTransition env tr ct =
        ((if ct.iNewStateId = FSM_ST_SAME then Result.noChange else Result.newState),
         tr ++ (ct.actions.zip rs).map (fun p => CbEvent.act p.1 p.2)) := by
  obtain ⟨rs, hlen, hrun⟩ := runActions_catch_all env ct.actions tr
  refine ⟨rs, hlen, ?_⟩
  unfold _fsmExecuteTransition
  have hb : (ct.iEventId == FSM_CATCH_TRANSITION) = true := by simp [hct]
  rw [hb, hrun]
  simp

/-- A transition found by `_fsmGetTransition` carries the searched event id. -/
theorem getTransition_eventId (ts : List FsmTransition) (eid : Int) (t : FsmTransition)
    (h : _fsmGetTransition ts eid = some t) : t.iEventId = eid := by
  unfold _fsmGetTransition at h
  have := List.find?_some h
  simpa using this

/-- Claim C3: when an action of a matched (non-catch) transition fails:
(1) the actions after the failing one are not invoked — the transition's log
is the passing prefix followed by the single failing action;
(2) with no catch transition on the matching state, the match produces
`ActionFailure` and nothing beyond the failed run is logged;
(3) with a catch transition present, every one of its actions is logged
regardless of failures, its target becomes the effective target, and the
result is `NewState` unless that target is `SAME` (then `NoChange`). -/
theorem c3_action_failure_handling (env : Env) (st : FsmState) (t : FsmTransition)
    (tr : List CbEvent)
    (hnc : t.iEventId ≠ FSM_CATCH_TRANSITION)
    (hfail : (_fsmExecuteTransition env tr t).1 = Result.actionFailure) :
    (∃ pre a post, t.actions = pre ++ a :: post ∧
       (_fsmExecuteTransition env tr t).2 =
         tr ++ pre.map (fun x => CbEvent.act x true) ++ [CbEvent.act a false]) ∧
    (∀ i : Nat, _fsmGetTransition st.transitions FSM_CATCH_TRANSITION = none →
       execMatched env st t i tr =
         (Result.actionFailure, none, some i, (_fsmExecuteTransition env tr t).2)) ∧
    (∀ (i : Nat) (ct : FsmTransition),
       _fsmGetTransition st.transitions FSM_CATCH_TRANSITION = some ct →
       ((execMatched env st t i tr).1 =
          (if ct.iNewStateId = FSM_ST_SAME then Result.noChange else Result.newState)) ∧
       ((execMatched env st t i tr).2.1 =
          (if ct.iNewStateId = FSM_ST_SAME then none
           else some (ct.iNewStateId, ct.bSubState))) ∧
       (∃ rs, rs.length = ct.actions.length ∧
          (execMatched env st t i tr).2.2.2 =
            (_fsmExecuteTransition env tr t).2 ++
              (ct.actions.zip rs).map (fun p => CbEvent.act p.1 p.2))) := by
  have hb : (t.iEventId == FSM_CATCH_TRANSITION) = false := by simp [hnc]
  refine ⟨?_, ?_, ?_⟩
  · have hp1 : (runActions env false tr t.actions).1 = false := by
      unfold _fsmExecuteTransition at hfail
      rw [hb] at hfail
      dsimp only at hfail
      by_contra hcon
      rw [Bool.not_eq_false] at hcon
      rw [if_pos hcon] at hfail
      split at hfail <;> simp at hfail
    obtain ⟨pre, a, post, hsplit, htr⟩ := runActions_fail_split env t.actions tr hp1
    refine ⟨pre, a, post, hsplit, ?_⟩
    have h2 : (_fsmExecuteTransition env tr t).2 = (runActions env false tr t.actions).2 := by
      unfold _fsmExecuteTransition
      rw [hb]
      dsimp only
      split <;> rfl
    rw [h2, htr]
  · intro i hnone
    unfold execMatched
    dsimp only
    rw [if_pos hfail, hnone]
  · intro i ct hsome
    have hct : ct.iEventId = FSM_CATCH_TRANSITION :=
      getTransition_eventId st.transitions FSM_CATCH_TRANSITION ct hsome
    obtain ⟨rs, hlen, hq⟩ :=
      execTransition_catch env (_fsmExecuteTransition env tr t).2 ct hct
    have hexec : execMatched env st t i tr =
        ((if ct.iNewStateId = FSM_ST_SAME then Result.noChange else Result.newState),
         (if (if ct.iNewStateId = FSM_ST_SAME then Result.noChange else Result.newState)
            = Result.newState then some (ct.iNewStateId, ct.bSubState) else none),
         some i,
         (_fsmExecuteTransition env tr t).2 ++
           (ct.actions.zip rs).map (fun p => CbEvent.act p.1 p.2)) := by
      unfold execMatched
      dsimp only
      rw [if_pos hfail, hsome]
      dsimp only
      rw [hq]
    rw [hexec]
    refine ⟨rfl, ?_, rs, hlen, rfl⟩
    by_cases hsame : ct.iNewStateId = FSM_ST_SAME
    · simp [hsame]
    · simp [hsame]

/-- Witness for C3 at the concrete state `stC3w`: transition `tC3w` (actions
0 then 3, with action 0 failing) recovers through catch `ctC3w` (action 1,
target 9): result `NewState` via the ite, and the catch's full action list is
logged. -/
theorem c3_action_failure_handling_witness :
    (execMatched envAct0Fails stC3w tC3w 0 []).1 =
      (if ctC3w.iNewStateId = FSM_ST_SAME then Result.noChange else Result.newState) ∧
    (execMatched envAct0Fails stC3w tC3w 0 []).2.1 =
      (if ctC3w.iNewStateId = FSM_ST_SAME then none
       else some (ctC3w.iNewStateId, ctC3w.bSubState)) := by
  have h := c3_action_failure_handling envAct0Fails stC3w tC3w [] (by decide) rfl
  exact ⟨(h.2.2 0 ctC3w rfl).1, (h.2.2 0 ctC3w rfl).2.1⟩

/-- Characterization of one reporting pass of `fsmVerifyFsm`: the boolean is
cleared iff some element satisfies the violation predicate, and the reports
are appended in traversal order. -/
theorem verify_fold_char {α : Type} (f : α → Bool) (g : α → Int × FsmVerifyError) :
    ∀ (l : List α) (b : Bool) (acc : List (Int × FsmVerifyError)),
      l.foldl (fun acc2 x => if f x then (false, acc2.2 ++ [g x]) else acc2) (b, acc) =
        (b && l.all (fun x => !f x), acc ++ (l.filter f).map g) := by
  intro l
  induction l with
  | nil => intro b acc; simp
  | cons x rest ih =>
    intro b acc
    cases hf : f x
    · simp only [List.foldl_cons, hf, Bool.false_eq_true, if_false]
      rw [ih]
      simp [hf]
    · simp only [List.foldl_cons, hf, if_true]
      rw [ih]
      simp [hf]

/-- Characterization of the nested (per-state, per-transition) reporting pass
of `fsmVerifyFsm`. -/
theorem verify_fold2_char (f : FsmTransition → Bool) (g : FsmTransition → Int × FsmVerifyError) :
    ∀ (l : List FsmState) (b : Bool) (acc : List (Int × FsmVerifyError)),
      l.foldl (fun acc2 s => s.transitions.foldl
          (fun acc3 t => if f t then (false, acc3.2 ++ [g t]) else acc3) acc2) (b, acc) =
        (b && l.all (fun s => s.transitions.all (fun t => !f t)),
         acc ++ (((l.map (fun s => s.transitions)).flatten.filter f).map g)) := by
  intro l
  induction l with
  | nil => intro b acc; simp
  | cons s rest ih =>
    intro b acc
    simp only [List.foldl_cons]
    rw [verify_fold_char f g s.transitions b acc, ih]
    simp [Bool.and_assoc]

/-- `_fsmIsStateEntered` decides "some transition of some state targets the
id". -/
theorem isStateEntered_iff (states : List FsmState) (sid : Int) :
    _fsmIsStateEntered states sid = true ↔
      ∃ s2 ∈ states, ∃ t ∈ s2.transitions, t.iNewStateId = sid := by
  simp [_fsmIsStateEntered, List.any_eq_true]

/-- `_fsmIsStateExitted` decides "some state with the id has a transition to a
different, non-`SAME` id". -/
theorem isStateExitted_iff (states : List FsmState) (sid : Int) :
    _fsmIsStateExitted states sid = true ↔
      ∃ s2 ∈ states, s2.iStateId = sid ∧
        ∃ t2 ∈ s2.transitions, t2.iNewStateId ≠ sid ∧ t2.iNewStateId ≠ FSM_ST_SAME := by
  simp [_fsmIsStateExitted, List.any_eq_true]

/-- Claim C8: `fsmVerifyFsm` returns false iff some non-ANY state is never
entered (NoEntry) or some transition with a concrete target (`≥ 0`) points at
a state that is never exitted (NoExit); it returns true iff it reported
nothing; and every violating state and every violating transition target is
reported (the pass does not stop at the first violation). -/
theorem c8_verify_characterization (fsm : FsmCb) :
    ((fsmVerifyFsm fsm).1 = false ↔
      (∃ s ∈ fsm.states, s.iStateId ≠ FSM_ST_ANY ∧
        ¬ ∃ s2 ∈ fsm.states, ∃ t ∈ s2.transitions, t.iNewStateId = s.iStateId) ∨
      (∃ s ∈ fsm.states, ∃ t ∈ s.transitions, t.iNewStateId ≥ 0 ∧
        ¬ ∃ s2 ∈ fsm.states, s2.iStateId = t.iNewStateId ∧
          ∃ t2 ∈ s2.transitions, t2.iNewStateId ≠ t.iNewStateId ∧
            t2.iNewStateId ≠ FSM_ST_SAME)) ∧
    ((fsmVerifyFsm fsm).1 = true ↔ (fsmVerifyFsm fsm).2 = []) ∧
    (∀ s ∈ fsm.states, s.iStateId ≠ FSM_ST_ANY →
      (¬ ∃ s2 ∈ fsm.states, ∃ t ∈ s2.transitions, t.iNewStateId = s.iStateId) →
      (s.iStateId, FsmVerifyError.noEntry) ∈ (fsmVerifyFsm fsm).2) ∧
    (∀ s ∈ fsm.states, ∀ t ∈ s.transitions, t.iNewStateId ≥ 0 →
      (¬ ∃ s2 ∈ fsm.states, s2.iStateId = t.iNewStateId ∧
        ∃ t2 ∈ s2.transitions, t2.iNewStateId ≠ t.iNewStateId ∧
          t2.iNewStateId ≠ FSM_ST_SAME) →
      (t.iNewStateId, FsmVerifyError.noExit) ∈ (fsmVerifyFsm fsm).2) := by
  have hchar : fsmVerifyFsm fsm =
      ((fsm.states.all (fun s =>
          !(s.iStateId != FSM_ST_ANY && !(_fsmIsStateEntered fsm.states s.iStateId)))) &&
        (fsm.states.all (fun s => s.transitions.all (fun t =>
          !(decide (t.iNewStateId ≥ 0) && !(_fsmIsStateExitted fsm.states t.iNewStateId))))),
       ((fsm.states.filter (fun s =>
           s.iStateId != FSM_ST_ANY && !(_fsmIsStateEntered fsm.states s.iStateId))).map
          (fun s => (s.iStateId, FsmVerifyError.noEntry))) ++
       (((fsm.states.map (fun s => s.transitions)).flatten.filter (fun t =>
           decide (t.iNewStateId ≥ 0) && !(_fsmIsStateExitted fsm.states t.iNewStateId))).map
          (fun t => (t.iNewStateId, FsmVerifyError.noExit)))) := by
    unfold fsmVerifyFsm
    dsimp only
    rw [verify_fold_char, verify_fold2_char]
    simp
  have hf1 : ∀ s : FsmState,
      (s.iStateId != FSM_ST_ANY && !(_fsmIsStateEntered fsm.states s.iStateId)) = true ↔
      (s.iStateId ≠ FSM_ST_ANY ∧
        ¬ ∃ s2 ∈ fsm.states, ∃ t ∈ s2.transitions, t.iNewStateId = s.iStateId) := by
    intro s
    rw [Bool.and_eq_true, bne_iff_ne, Bool.not_eq_true', Bool.eq_false_iff]
    simp only [ne_eq, isStateEntered_iff]
  have hf2 : ∀ t : FsmTransition,
      (decide (t.iNewStateId ≥ 0) && !(_fsmIsStateExitted fsm.states t.iNewStateId)) = true ↔
      (t.iNewStateId ≥ 0 ∧
        ¬ ∃ s2 ∈ fsm.states, s2.iStateId = t.iNewStateId ∧
          ∃ t2 ∈ s2.transitions, t2.iNewStateId ≠ t.iNewStateId ∧
            t2.iNewStateId ≠ FSM_ST_SAME) := by
    intro t
    rw [Bool.and_eq_true, decide_eq_true_eq, Bool.not_eq_true', Bool.eq_false_iff]
    simp only [ne_eq, isStateExitted_iff]
  refine ⟨?_, ?_, ?_, ?_⟩
  · rw [hchar]
    rw [Bool.and_eq_false_iff]
    apply or_congr
    · rw [List.all_eq_false]
      simp only [Bool.not_eq_true, Bool.not_eq_false', hf1]
    · rw [List.all_eq_false]
      simp only [Bool.not_eq_true, List.all_eq_false, Bool.not_eq_false', hf2]
  · rw [hchar]
    simp only [Bool.and_eq_true, List.all_eq_true, List.append_eq_nil,
      List.map_eq_nil_iff, List.filter_eq_nil_iff, Bool.not_eq_true', Bool.not_eq_false,
      List.mem_flatten, List.mem_map]
    constructor
    · rintro ⟨h1, h2⟩
      refine ⟨fun s hs => by simpa using h1 s hs, fun t ht => ?_⟩
      obtain ⟨ts, ⟨s, hs, rfl⟩, htts⟩ := ht
      simpa using h2 s hs t htts
    · rintro ⟨h1, h2⟩
      refine ⟨fun s hs => by simpa using h1 s hs, fun s hs t ht => ?_⟩
      simpa using h2 t ⟨s.transitions, ⟨s, hs, rfl⟩, ht⟩
  · intro s hs hany hne
    rw [hchar]
    apply List.mem_append.mpr
    exact Or.inl (List.mem_map.mpr ⟨s, List.mem_filter.mpr ⟨hs, (hf1 s).mpr ⟨hany, hne⟩⟩, rfl⟩)
  · intro s hs t ht hge hne
    rw [hchar]
    apply List.mem_append.mpr
    refine Or.inr (List.mem_map.mpr ⟨t, List.mem_filter.mpr ⟨?_, (hf2 t).mpr ⟨hge, hne⟩⟩, rfl⟩)
    exact List.mem_flatten.mpr ⟨s.transitions, List.mem_map.mpr ⟨s, hs, rfl⟩, ht⟩

/-- Witness for C8 at the graph `fsmC8w`: state 0 is never entered and the
target 1 of state 0's transition is never exitted; both are reported. -/
theorem c8_verify_characterization_witness :
    (0, FsmVerifyError.noEntry) ∈ (fsmVerifyFsm fsmC8w).2 ∧
    (1, FsmVerifyError.noExit) ∈ (fsmVerifyFsm fsmC8w).2 := by
  have h := c8_verify_characterization fsmC8w
  exact ⟨h.2.2.1 stV1w (by decide) (by decide) (by decide),
         h.2.2.2 stV1w (by decide) ⟨1, false, 5, [], []⟩ (by decide) (by decide) (by decide)⟩

/-- Claim C4 (amended): when the match happens on the ANY-state via the
wildcard fallback and one of its actions fails, the engine consults the CATCH
transition of the state where the match occurred — the ANY-state itself:
(1) if the ANY-state's execution ends in `ActionFailure` (no applicable
catch), `fsmExecute` returns `ActionFailure` and the object state is
unchanged; (2) if the ANY-state carries a catch transition and the matched
transition's actions fail, the catch is executed: the result of the match
becomes `NewState`/`NoChange` according to the catch's target, all of the
catch's actions are logged, and `fsmExecute` does not return
`ActionFailure`. -/
theorem c4_any_state_catch :
    (∀ (env : Env) (fsm : FsmCb) (os : FsmObjectState) (eventId : Int)
        (trS : List CbEvent) (anySt : FsmState),
      eventId ≠ FSM_CATCH_TRANSITION →
      scanNest env fsm.states os.iNestedStateIds eventId 0 (os.iNestDepth + 1).toNat [] =
        ScanOutcome.noMatch trS →
      _fsmGetState fsm.states FSM_ST_ANY = some anySt →
      (_fsmExecuteState env anySt eventId trS).1 = Result.actionFailure →
      (fsmExecute env fsm os eventId).1 = Result.actionFailure ∧
      (fsmExecute env fsm os eventId).2.1 = os) ∧
    (∀ (env : Env) (fsm : FsmCb) (os : FsmObjectState) (eventId : Int)
        (trS : List CbEvent) (anySt : FsmState) (t ct : FsmTransition),
      eventId ≠ FSM_CATCH_TRANSITION →
      scanNest env fsm.states os.iNestedStateIds eventId 0 (os.iNestDepth + 1).toNat [] =
        ScanOutcome.noMatch trS →
      _fsmGetState fsm.states FSM_ST_ANY = some anySt →
      anySt.transitions = [t, ct] →
      t.iEventId = eventId →
      t.conditions = [] →
      ct.iEventId = FSM_CATCH_TRANSITION →
      (_fsmExecuteTransition env trS t).1 = Result.actionFailure →
      (fsmExecute env fsm os eventId).1 ≠ Result.actionFailure ∧
      ((_fsmExecuteState env anySt eventId trS).1 =
        (if ct.iNewStateId = FSM_ST_SAME then Result.noChange else Result.newState)) ∧
      (∃ rs, rs.length = ct.actions.length ∧
        (_fsmExecuteState env anySt eventId trS).2.2.2 =
          (_fsmExecuteTransition env trS t).2 ++
            (ct.actions.zip rs).map (fun p => CbEvent.act p.1 p.2))) := by
  constructor
  · intro env fsm os eventId trS anySt hev hscan hany hexec
    have hfe : fsmExecute env fsm os eventId =
        (let r := _fsmExecuteState env anySt eventId trS;
         let s := stepD env fsm.states os r.1 r.2.1 0 r.2.2.2;
         (s.1, s.2.1, s.2.2, (r.2.2.1).map MatchLoc.atAny)) := by
      unfold fsmExecute
      rw [if_neg hev, hscan, hany]
    rw [hfe]
    dsimp only
    rw [hexec]
    rw [stepD_of_ne_newState env fsm.states os Result.actionFailure _ 0 _ (by decide)]
    exact ⟨rfl, rfl⟩
  · intro env fsm os eventId trS anySt t ct hev hscan hany hts hte htc hcte hfailT
    have hfind : _fsmGetTransition anySt.transitions FSM_CATCH_TRANSITION = some ct := by
      rw [hts]
      unfold _fsmGetTransition
      have hbt : (t.iEventId == FSM_CATCH_TRANSITION) = false := by
        simp [hte, hev]
      have hbc : (ct.iEventId == FSM_CATCH_TRANSITION) = true := by simp [hcte]
      simp [List.find?, hbt, hbc]
    obtain ⟨rs, hlen, hq⟩ := execTransition_catch env (_fsmExecuteTransition env trS t).2 ct hcte
    have hes : _fsmExecuteState env anySt eventId trS =
        ((if ct.iNewStateId = FSM_ST_SAME then Result.noChange else Result.newState),
         (if (if ct.iNewStateId = FSM_ST_SAME then Result.noChange else Result.newState)
            = Result.newState then some (ct.iNewStateId, ct.bSubState) else none),
         some 0,
         (_fsmExecuteTransition env trS t).2 ++
           (ct.actions.zip rs).map (fun p => CbEvent.act p.1 p.2)) := by
      unfold _fsmExecuteState
      rw [hts]
      unfold stateLoop
      rw [if_pos hte, htc]
      unfold runConditions
      dsimp only
      unfold execMatched
      dsimp only
      rw [if_pos hfailT, hfind]
      dsimp only
      rw [hq]
      simp
    refine ⟨?_, by rw [hes], rs, hlen, by rw [hes]⟩
    have hfe : fsmExecute env fsm os eventId =
        (let r := _fsmExecuteState env anySt eventId trS;
         let s := stepD env fsm.states os r.1 r.2.1 0 r.2.2.2;
         (s.1, s.2.1, s.2.2, (r.2.2.1).map MatchLoc.atAny)) := by
      unfold fsmExecute
      rw [if_neg hev, hscan, hany]
    rw [hfe]
    dsimp only
    rw [hes]
    dsimp only
    by_cases hsame : ct.iNewStateId = FSM_ST_SAME
    · rw [if_pos hsame]
      rw [stepD_of_ne_newState env fsm.states os Result.noChange _ 0 _ (by decide)]
      intro hcon
      simp at hcon
    · rw [if_neg hsame]
      rcases stepD_newState_result env fsm.states os Result.newState
          (if Result.newState = Result.newState
           then some (ct.iNewStateId, ct.bSubState) else none) 0
          ((_fsmExecuteTransition env trS t).2 ++
            (ct.actions.zip rs).map (fun p => CbEvent.act p.1 p.2)) rfl with h1 | h1 <;>
        (intro hcon; rw [h1] at hcon; exact absurd hcon (by decide))

/-- Witness for the amended C4: with the catchless ANY-state graph `fsmC4nw`
the failed ANY match surfaces as `ActionFailure` with the object state
unchanged; with the catch-carrying ANY-state graph `fsmC4w` the result is not
`ActionFailure`. -/
theorem c4_any_state_catch_witness :
    ((fsmExecute envAct0Fails fsmC4nw osC4w 5).1 = Result.actionFailure ∧
     (fsmExecute envAct0Fails fsmC4nw osC4w 5).2.1 = osC4w) ∧
    (fsmExecute envAct0Fails fsmC4w osC4w 5).1 ≠ Result.actionFailure :=
  ⟨c4_any_state_catch.1 envAct0Fails fsmC4nw osC4w 5 [] stAnyNCw (by decide) rfl rfl rfl,
   (c4_any_state_catch.2 envAct0Fails fsmC4w osC4w 5 [] stAnyW ⟨7, false, 5, [], [0]⟩
      ⟨9, false, -1, [], [1]⟩ (by decide) rfl rfl rfl rfl rfl rfl rfl).1⟩

/-- `_fsmExecuteTransition` never produces `NO_TRANSITION`. -/
theorem execTransition_ne_noTransition (env : Env) (tr : List CbEvent) (t : FsmTransition) :
    (_fsmExecuteTransition env tr t).1 ≠ Result.noTransition := by
  unfold _fsmExecuteTransition
  dsimp only
  split
  · split <;> simp
  · simp

/-- `execMatched` always records the position of the matched transition. -/
theorem execMatched_ghost (env : Env) (st : FsmState) (t : FsmTransition) (i : Nat)
    (tr : List CbEvent) : (execMatched env st t i tr).2.2.1 = some i := by
  unfold execMatched
  dsimp only
  split
  · split <;> rfl
  · rfl

/-- `execMatched` never produces `NO_TRANSITION`. -/
theorem execMatched_ne_noTransition (env : Env) (st : FsmState) (t : FsmTransition) (i : Nat)
    (tr : List CbEvent) : (execMatched env st t i tr).1 ≠ Result.noTransition := by
  unfold execMatched
  dsimp only
  split
  · split
    · exact execTransition_ne_noTransition env _ _
    · simp
  · exact execTransition_ne_noTransition env tr t

/-- The transition-search loop agrees with the spec-side candidate scan: it
records exactly the position the spec scan selects, it reports
`NO_TRANSITION` exactly when the spec scan selects nothing, and in that case
the two leave the same condition-evaluation trace. -/
theorem stateLoop_spec (env : Env) (st : FsmState) (eventId : Int) :
    ∀ (ts : List FsmTransition) (i : Nat) (tr : List CbEvent),
      ((stateLoop env st eventId ts i tr).2.2.1 =
        (specFindInState env eventId ts i tr).1) ∧
      ((stateLoop env st eventId ts i tr).1 = Result.noTransition ↔
        (specFindInState env eventId ts i tr).1 = none) ∧
      ((specFindInState env eventId ts i tr).1 = none →
        (stateLoop env st eventId ts i tr).2.2.2 =
          (specFindInState env eventId ts i tr).2) := by
  intro ts
  induction ts with
  | nil => intro i tr; simp [stateLoop, specFindInState]
  | cons t rest ih =>
    intro i tr
    unfold stateLoop specFindInState
    dsimp only
    by_cases hte : t.iEventId = eventId
    · rw [if_pos hte, if_pos hte]
      cases hc : (runConditions env tr t.conditions).1
      · simp only [Bool.false_eq_true, if_false]
        exact ih (i + 1) (runConditions env tr t.conditions).2
      · simp only [if_true]
        refine ⟨execMatched_ghost env st t i _, ?_, ?_⟩
        · simp [execMatched_ne_noTransition env st t i _]
        · intro hcon
          exact absurd hcon (by simp)
    · rw [if_neg hte, if_neg hte]
      exact ih (i + 1) tr

/-- The nest-scan loop agrees with the spec-side scan, provided every scanned
stack entry names a state of the graph: it never reports a missing state, a
found match is exactly the spec scan's selection, and a finished scan with no
match corresponds to the spec scan selecting nothing. -/
theorem scanNest_spec (env : Env) (states : List FsmState) (stack : Int → Int) (eventId : Int) :
    ∀ (rem cnt : Nat) (tr : List CbEvent),
      (∀ k : Nat, cnt ≤ k → k < cnt + rem → (_fsmGetState states (stack k)).isSome = true) →
      ((∀ trm, scanNest env states stack eventId cnt rem tr ≠ ScanOutcome.missing trm) ∧
       (∀ res info d ti trf,
          scanNest env states stack eventId cnt rem tr = ScanOutcome.found res info d ti trf →
          (specScan env states stack eventId cnt rem tr).1 = some (d, ti)) ∧
       (∀ trm, scanNest env states stack eventId cnt rem tr = ScanOutcome.noMatch trm →
          (specScan env states stack eventId cnt rem tr).1 = none)) := by
  intro rem
  induction rem with
  | zero =>
    intro cnt tr _
    refine ⟨fun trm h => by simp [scanNest] at h, fun res info d ti trf h => ?_, fun trm _ => rfl⟩
    simp [scanNest] at h
  | succ rem ih =>
    intro cnt tr hpres
    obtain ⟨st, hst⟩ := Option.isSome_iff_exists.mp
      (hpres cnt (Nat.le_refl cnt) (by omega))
    have hloop := stateLoop_spec env st eventId st.transitions 0 tr
    unfold scanNest specScan
    rw [hst]
    dsimp only
    by_cases hr : (_fsmExecuteState env st eventId tr).1 = Result.noTransition
    · have hnone : (specFindInState env eventId st.transitions 0 tr).1 = none :=
        hloop.2.1.mp hr
      have htr : (_fsmExecuteState env st eventId tr).2.2.2 =
          (specFindInState env eventId st.transitions 0 tr).2 := hloop.2.2 hnone
      rw [if_pos hr, hnone]
      dsimp only
      rw [htr]
      exact ih (cnt + 1) _ (fun k h1 h2 => hpres k (by omega) (by omega))
    · rw [if_neg hr]
      obtain ⟨ti0, hti0⟩ : ∃ ti0,
          (specFindInState env eventId st.transitions 0 tr).1 = some ti0 := by
        rcases ho : (specFindInState env eventId st.transitions 0 tr).1 with _ | ti0
        · exact absurd (hloop.2.1.mpr ho) hr
        · exact ⟨ti0, rfl⟩
      have hg : (_fsmExecuteState env st eventId tr).2.2.1 = some ti0 := by
        rw [← hti0]
        exact hloop.1
      rw [hti0]
      dsimp only
      refine ⟨fun trm h => by simp at h, fun res info d ti trf h => ?_, fun trm h => by simp at h⟩
      rw [hg] at h
      simp only [Option.getD_some] at h
      injection h with h1 h2 h3 h4 h5
      subst h3
      subst h4
      rfl

/-- A state owning a condition-free transition for the event always yields a
match in the spec-side candidate scan. -/
theorem specFindInState_uncond (env : Env) (eventId : Int) :
    ∀ (ts : List FsmTransition),
      (∃ t ∈ ts, t.iEventId = eventId ∧ t.conditions = []) →
      ∀ (i : Nat) (tr : List CbEvent),
        ∃ ti, (specFindInState env eventId ts i tr).1 = some ti := by
  intro ts
  induction ts with
  | nil => rintro ⟨t, ht, _⟩ i tr; exact absurd ht (List.not_mem_nil t)
  | cons t0 rest ih =>
    rintro ⟨t, ht, hte, htc⟩ i tr
    unfold specFindInState
    dsimp only
    by_cases ht0 : t0.iEventId = eventId
    · rw [if_pos ht0]
      cases hc : (runConditions env tr t0.conditions).1
      · simp only [Bool.false_eq_true, if_false]
        rcases List.mem_cons.mp ht with rfl | hrest
        · rw [htc] at hc
          simp [runConditions] at hc
        · exact ih ⟨t, hrest, hte, htc⟩ (i + 1) _
      · exact ⟨i, by simp⟩
    · rw [if_neg ht0]
      rcases List.mem_cons.mp ht with rfl | hrest
      · exact absurd hte ht0
      · exact ih ⟨t, hrest, hte, htc⟩ (i + 1) tr

/-- If some scanned index owns an enabled condition-free transition for the
event, the spec-side scan selects a match at that index or an outer one. -/
theorem specScan_uncond (env : Env) (states : List FsmState) (stack : Int → Int)
    (eventId : Int) :
    ∀ (rem cnt : Nat) (tr : List CbEvent),
      (∀ k : Nat, cnt ≤ k → k < cnt + rem → (_fsmGetState states (stack k)).isSome = true) →
      ∀ i : Nat, cnt ≤ i → i < cnt + rem →
        (∃ st, _fsmGetState states (stack i) = some st ∧
           ∃ t ∈ st.transitions, t.iEventId = eventId ∧ t.conditions = []) →
        ∃ d ti, (specScan env states stack eventId cnt rem tr).1 = some (d, ti) ∧ d ≤ i := by
  intro rem
  induction rem with
  | zero => intro cnt tr _ i h1 h2; omega
  | succ rem ih =>
    intro cnt tr hpres i h1 h2 hunc
    obtain ⟨st0, hst0⟩ := Option.isSome_iff_exists.mp
      (hpres cnt (Nat.le_refl cnt) (by omega))
    unfold specScan
    rw [hst0]
    dsimp only
    rcases ho : (specFindInState env eventId st0.transitions 0 tr).1 with _ | ti0
    · by_cases hic : i = cnt
      · obtain ⟨st, hst, hu⟩ := hunc
        rw [hic, hst0] at hst
        obtain ⟨ti, hti⟩ := specFindInState_uncond env eventId st0.transitions
          (by injection hst with h; rw [h]; exact hu) 0 tr
        rw [ho] at hti
        exact absurd hti (by simp)
      · obtain ⟨d, ti, hd, hdi⟩ := ih (cnt + 1) _
          (fun k ha hb => hpres k (by omega) (by omega)) i (by omega) (by omega) hunc
        exact ⟨d, ti, hd, hdi⟩
    · exact ⟨cnt, ti0, rfl, h1⟩

/-- Claim C1: over a stack whose scanned entries all name states of the graph
and for a non-CATCH event, the transition `fsmExecute` selects is exactly the
one determined by the spec's scan: nest indices `0..depth` outermost-first,
same-event transitions in declaration order, condition-chain failures
skipped, first all-true candidate wins (`specScan`).  In particular a nest
index owning an enabled (condition-free) same-event transition forces the
selection to happen at that index or an outer one. -/
theorem c1_transition_selection (env : Env) (fsm : FsmCb) (os : FsmObjectState)
    (eventId : Int)
    (hev : eventId ≠ FSM_CATCH_TRANSITION)
    (hpres : ∀ k : Nat, (k : Int) ≤ os.iNestDepth →
      (_fsmGetState fsm.states (os.iNestedStateIds k)).isSome = true) :
    (∀ d ti, (fsmExecute env fsm os eventId).2.2.2 = some (MatchLoc.atDepth d ti) ↔
       (specScan env fsm.states os.iNestedStateIds eventId 0
         (os.iNestDepth + 1).toNat []).1 = some (d, ti)) ∧
    (∀ i : Nat, (i : Int) ≤ os.iNestDepth →
       (∃ st, _fsmGetState fsm.states (os.iNestedStateIds i) = some st ∧
          ∃ t ∈ st.transitions, t.iEventId = eventId ∧ t.conditions = []) →
       ∃ d ti, (fsmExecute env fsm os eventId).2.2.2 = some (MatchLoc.atDepth d ti) ∧
         d ≤ i) := by
  have hpresW : ∀ k : Nat, 0 ≤ k → k < 0 + (os.iNestDepth + 1).toNat →
      (_fsmGetState fsm.states (os.iNestedStateIds k)).isSome = true := by
    intro k _ hk
    apply hpres
    have : (k : Int) < os.iNestDepth + 1 := Int.lt_toNat.mp (by omega)
    omega
  obtain ⟨hmiss, hfound, hnom⟩ :=
    scanNest_spec env fsm.states os.iNestedStateIds eventId
      ((os.iNestDepth + 1).toNat) 0 [] hpresW
  have hiff : ∀ d ti, (fsmExecute env fsm os eventId).2.2.2 =
      some (MatchLoc.atDepth d ti) ↔
      (specScan env fsm.states os.iNestedStateIds eventId 0
        (os.iNestDepth + 1).toNat []).1 = some (d, ti) := by
    intro d ti
    unfold fsmExecute
    rw [if_neg hev]
    cases hscan : scanNest env fsm.states os.iNestedStateIds eventId 0
        (os.iNestDepth + 1).toNat [] with
    | missing trm => exact absurd hscan (hmiss trm)
    | noMatch trm =>
      rw [hnom trm hscan]
      cases hany : _fsmGetState fsm.states FSM_ST_ANY with
      | none => simp
      | some anySt =>
        dsimp only
        constructor
        · intro h
          rcases Option.map_eq_some'.mp h with ⟨a, _, ha⟩
          exact absurd ha.symm (by simp)
        · intro h
          exact absurd h (by simp)
    | found res info d0 ti0 trf =>
      rw [hfound res info d0 ti0 trf hscan]
      dsimp only
      constructor
      · intro h
        injection h with h1
        injection h1 with h2 h3
        rw [h2, h3]
      · intro h
        injection h with h1
        injection h1 with h2 h3
        rw [h2, h3]
  refine ⟨hiff, ?_⟩
  intro i hi hunc
  obtain ⟨d, ti, hspec, hdi⟩ :=
    specScan_uncond env fsm.states os.iNestedStateIds eventId
      ((os.iNestDepth + 1).toNat) 0 [] hpresW i (Nat.zero_le i)
      (by
        have h2 : (i : Int) < os.iNestDepth + 1 := by omega
        have h3 : i < (os.iNestDepth + 1).toNat := Int.lt_toNat.mpr h2
        omega) hunc
  exact ⟨d, ti, (hiff d ti).mpr hspec, hdi⟩

/-- Witness for C1: depth-1 stack `[10, 11]` where both active states own an
enabled transition for event 5; the selection is at the outer index 0,
matching the spec scan. -/
theorem c1_transition_selection_witness :
    (fsmExecute envAllPass fsmC1w osC1w 5).2.2.2 = some (MatchLoc.atDepth 0 0) := by
  have h := c1_transition_selection envAllPass fsmC1w osC1w 5 (by decide)
    (by
      intro k hk
      have hd : osC1w.iNestDepth = 1 := rfl
      rw [hd] at hk
      have hk2 : k = 0 ∨ k = 1 := by omega
      rcases hk2 with rfl | rfl <;> rfl)
  exact (h.1 0 0).mpr rfl

end Fsm
